import Mathlib

/-!
Verification of the ZTAP eBPF egress filter (src/bpf/filter.c).

The frame is modelled as a list of bytes (`List Nat`, each read reduced
mod 256, matching 8-bit memory cells).  `bpf_skb_load_bytes(skb, off, buf, n)`
succeeds exactly when `off + n` bytes are available; this is `loadOk`.
The host is little-endian (the source's `bpf_htons`/`bpf_ntohs` are
unconditional 16-bit byte swaps, which is only correct on a little-endian
host), so an in-memory multi-byte integer field is the little-endian
reading of the wire bytes (`readLE16`, `readLE32`).
-/

namespace ZTAP

/-- One byte of the frame buffer: reads reduce to an 8-bit value. -/
def byteAt (pkt : List Nat) (i : Nat) : Nat := (pkt.getD i 0) % 256

/-- Bounds contract of `bpf_skb_load_bytes`: the read of `len` bytes at
`off` stays inside the declared buffer length. -/
def loadOk (pkt : List Nat) (off len : Nat) : Prop := off + len ≤ pkt.length

instance (pkt : List Nat) (off len : Nat) : Decidable (loadOk pkt off len) :=
  inferInstanceAs (Decidable (off + len ≤ pkt.length))

/-- 16-bit byte swap, the body of the `bpf_htons` / `bpf_ntohs` macros
(`__builtin_bswap16`). -/
def bswap16 (x : Nat) : Nat := (x % 256) * 256 + (x / 256) % 256

/-- `#define bpf_htons(x) __builtin_bswap16(x)` -/
def bpf_htons (x : Nat) : Nat := bswap16 x

/-- `#define bpf_ntohs(x) __builtin_bswap16(x)` -/
def bpf_ntohs (x : Nat) : Nat := bswap16 x

/-- Little-endian (host in-memory) value of a 16-bit field at byte `i`. -/
def readLE16 (pkt : List Nat) (i : Nat) : Nat :=
  byteAt pkt i + 256 * byteAt pkt (i + 1)

/-- Little-endian (host in-memory) value of a 32-bit field at byte `i`. -/
def readLE32 (pkt : List Nat) (i : Nat) : Nat :=
  byteAt pkt i + 256 * byteAt pkt (i + 1) + 65536 * byteAt pkt (i + 2) +
    16777216 * byteAt pkt (i + 3)

/-- Big-endian (network byte order) numeric value of a 16-bit field at
byte `i`. -/
def readBE16 (pkt : List Nat) (i : Nat) : Nat :=
  256 * byteAt pkt i + byteAt pkt (i + 1)

/-- `#define ETH_P_IP 0x0800` -/
def ETH_P_IP : Nat := 0x0800

/-- `#define IPPROTO_TCP 6` -/
def IPPROTO_TCP : Nat := 6

/-- `#define IPPROTO_UDP 17` -/
def IPPROTO_UDP : Nat := 17

/-- `sizeof(struct ethhdr)`: 6 + 6 + 2 bytes; `h_proto` sits at offset 12. -/
def ethHdrLen : Nat := 14

/-- `sizeof(struct iphdr)`: 20 bytes; `protocol` is at offset 9 and
`daddr` at offset 16 within it. -/
def ipHdrLen : Nat := 20

/-- `sizeof(struct tcphdr)`: 20 bytes; `dest` is at offset 2 within it. -/
def tcpHdrLen : Nat := 20

/-- `sizeof(struct udphdr)`: 8 bytes; `dest` is at offset 2 within it. -/
def udpHdrLen : Nat := 8

/-- The low nibble of `ip.version_ihl` (the IHL field), read at absolute
offset `ethHdrLen + 0`. -/
def ihlField (pkt : List Nat) : Nat := byteAt pkt ethHdrLen % 16

/-- Effective IP header length used by the parser, from
`__u8 ihl = (ip.version_ihl & 0x0F) * 4; if (ihl < sizeof(struct iphdr)) ihl = sizeof(struct iphdr);` -/
def ihlEff (pkt : List Nat) : Nat :=
  if ihlField pkt * 4 < ipHdrLen then ipHdrLen else ihlField pkt * 4

/-- Absolute offset of the transport header: `sizeof(eth) + ihl`. -/
def transportOffset (pkt : List Nat) : Nat := ethHdrLen + ihlEff pkt

/-- The fields `parse_ipv4` hands back through its out-parameters
`dest_ip`, `protocol`, `dest_port`. -/
structure ParsedHeader where
  destAddress : Nat
  protocol : Nat
  destPort : Nat
deriving DecidableEq, Repr

/-- Why a parse attempt returned `-1`: the failing branch was either a
`bpf_skb_load_bytes` bounds failure or the ethertype test. -/
inductive ParseFailure where
  | Truncated
  | NotIPv4
deriving DecidableEq, Repr

/-- Shallow embedding of `parse_ipv4` (src/bpf/filter.c lines 116-163).
Each `loadOk` test mirrors one `bpf_skb_load_bytes` call; field reads are
the little-endian in-memory values of the copied structs. -/
def parse_ipv4 (pkt : List Nat) : Except ParseFailure ParsedHeader :=
  if ¬ loadOk pkt 0 ethHdrLen then .error .Truncated
  else if readLE16 pkt 12 ≠ bpf_htons ETH_P_IP then .error .NotIPv4
  else if ¬ loadOk pkt ethHdrLen ipHdrLen then .error .Truncated
  else
    let destIp := readLE32 pkt 30
    let proto := byteAt pkt 23
    if proto = IPPROTO_TCP then
      if ¬ loadOk pkt (transportOffset pkt) tcpHdrLen then .error .Truncated
      else .ok ⟨destIp, proto, bpf_ntohs (readLE16 pkt (transportOffset pkt + 2))⟩
    else if proto = IPPROTO_UDP then
      if ¬ loadOk pkt (transportOffset pkt) udpHdrLen then .error .Truncated
      else .ok ⟨destIp, proto, bpf_ntohs (readLE16 pkt (transportOffset pkt + 2))⟩
    else
      .ok ⟨destIp, proto, 0⟩

/-- `struct policy_value` action values: `0 = block, 1 = allow`. -/
inductive Action where
  | block
  | allow
deriving DecidableEq, Repr

/-- The `__u8 action` encoding of `struct policy_value`. -/
def actionCode : Action → Nat
  | .block => 0
  | .allow => 1

/-- `struct policy_key` (the `_padding` byte carries no information). -/
structure PolicyKey where
  dest_ip : Nat
  dest_port : Nat
  protocol : Nat
deriving DecidableEq, Repr

/-- The `policy_map` contents: an association of keys to actions. -/
abbrev PolicyTable := List (PolicyKey × Action)

/-- `bpf_map_lookup_elem(&policy_map, &key)`: first entry with this key,
if any. -/
def lookup : PolicyTable → PolicyKey → Option Action
  | [], _ => none
  | (k2, a) :: rest, k => if k2 = k then some a else lookup rest k

/-- The lookup key built from the parsed fields (filter.c lines 181-185). -/
def mkKey (h : ParsedHeader) : PolicyKey :=
  ⟨h.destAddress, h.destPort, h.protocol⟩

/-- Shallow embedding of `filter_egress` (default-deny): returns the
program's `int` verdict, 1 = allow, 0 = block. -/
def filter_egress (pkt : List Nat) (t : PolicyTable) : Nat :=
  match parse_ipv4 pkt with
  | .error _ => 1
  | .ok h =>
    match lookup t (mkKey h) with
    | some v => if actionCode v = 1 then 1 else 0
    | none => 0

/-- Shallow embedding of `filter_egress_permissive` (default-allow):
returns 1 = allow, 0 = block. -/
def filter_egress_permissive (pkt : List Nat) (t : PolicyTable) : Nat :=
  match parse_ipv4 pkt with
  | .error _ => 1
  | .ok h =>
    match lookup t (mkKey h) with
    | some v => if actionCode v = 0 then 0 else 1
    | none => 1

/-- The spec's two-valued verdict. -/
inductive Verdict where
  | Allow
  | Block
deriving DecidableEq, Repr

/-- The verdict named by a stored action. -/
def actionVerdict : Action → Verdict
  | .allow => .Allow
  | .block => .Block

/-- The spec's enforcement modes; each corresponds to loading one of the
two programs. -/
inductive EnforcementMode where
  | DefaultDeny
  | DefaultPermissive
deriving DecidableEq, Repr

/-- The decision pipeline under a mode: `DefaultDeny` runs
`filter_egress`, `DefaultPermissive` runs `filter_egress_permissive`;
return value 1 is Allow, anything else Block. -/
def classify (mode : EnforcementMode) (pkt : List Nat) (t : PolicyTable) : Verdict :=
  match mode with
  | .DefaultDeny => if filter_egress pkt t = 1 then .Allow else .Block
  | .DefaultPermissive => if filter_egress_permissive pkt t = 1 then .Allow else .Block

/-- `__uint(max_entries, 10000)` of `policy_map`. -/
def max_entries : Nat := 10000

/-- Control-plane insert failure. -/
inductive InsertError where
  | CapacityExceeded
deriving DecidableEq, Repr

/-- Modelled from the spec: the control-plane `insert` of the policy
table is not in src/ (only the map declaration with `max_entries` 10000
is); per spec section 4.3 it is an upsert that fails with
`CapacityExceeded` when the table is at capacity and the key is new. -/
def insert (t : PolicyTable) (k : PolicyKey) (a : Action) :
    Except InsertError PolicyTable :=
  match lookup t k with
  | some _ => .ok (t.map (fun e => if e.1 = k then (k, a) else e))
  | none =>
    if t.length < max_entries then .ok (t ++ [(k, a)])
    else .error .CapacityExceeded

/-- State-passing view of `insert`: a failed insert reports the error and
leaves the table as it was. -/
def insertOp (t : PolicyTable) (k : PolicyKey) (a : Action) :
    Option InsertError × PolicyTable :=
  match insert t k a with
  | .ok t2 => (none, t2)
  | .error e => (some e, t)

/-! Helper lemmas -/

theorem byteAt_lt (pkt : List Nat) (i : Nat) : byteAt pkt i < 256 :=
  Nat.mod_lt _ (by norm_num)

/-- `bpf_ntohs` of the little-endian in-memory value of a 16-bit field is
its big-endian (network order) numeric value. -/
theorem bpf_ntohs_readLE16 (pkt : List Nat) (i : Nat) :
    bpf_ntohs (readLE16 pkt i) = readBE16 pkt i := by
  have b1 := byteAt_lt pkt i
  have b2 := byteAt_lt pkt (i + 1)
  unfold bpf_ntohs bswap16 readLE16 readBE16
  omega

/-- The source's ethertype test (on the little-endian in-memory value)
holds exactly when the wire ethertype, read big-endian, is `ETH_P_IP`. -/
theorem eth_proto_iff (pkt : List Nat) :
    readLE16 pkt 12 = bpf_htons ETH_P_IP ↔ readBE16 pkt 12 = ETH_P_IP := by
  have b1 := byteAt_lt pkt 12
  have b2 := byteAt_lt pkt (12 + 1)
  unfold readLE16 readBE16 bpf_htons bswap16 ETH_P_IP
  omega

/-- Inversion of a successful parse: where each returned field comes from. -/
theorem parse_ok_inv (pkt : List Nat) (h : ParsedHeader)
    (hok : parse_ipv4 pkt = .ok h) :
    h.destAddress = readLE32 pkt 30 ∧ h.protocol = byteAt pkt 23 ∧
    ((h.protocol = IPPROTO_TCP ∨ h.protocol = IPPROTO_UDP) →
      h.destPort = bpf_ntohs (readLE16 pkt (transportOffset pkt + 2))) ∧
    (h.protocol ≠ IPPROTO_TCP → h.protocol ≠ IPPROTO_UDP → h.destPort = 0) := by
  simp only [parse_ipv4] at hok
  split_ifs at hok with h1 h2 h3 h4 h5 h6 h7
  · cases hok
    refine ⟨rfl, rfl, fun _ => rfl, fun hn _ => absurd ?_ hn⟩
    exact h4
  · cases hok
    refine ⟨rfl, rfl, fun _ => rfl, fun _ hn => absurd ?_ hn⟩
    exact h6
  · cases hok
    exact ⟨rfl, rfl, fun hc => absurd hc (by simp [h4, h6]), fun _ _ => rfl⟩

/-- A lookup misses exactly when the key is not among the stored keys. -/
theorem lookup_eq_none (t : PolicyTable) (k : PolicyKey) :
    lookup t k = none ↔ k ∉ t.map Prod.fst := by
  induction t with
  | nil => simp [lookup]
  | cons e rest ih =>
    obtain ⟨k2, a⟩ := e
    by_cases hk : k2 = k
    · subst hk; simp [lookup]
    · simp only [lookup, List.map_cons, List.mem_cons, if_neg hk, ih]
      refine ⟨fun hmem h => ?_, fun h hmem => h (Or.inr hmem)⟩
      rcases h with h | h
      · exact hk h.symm
      · exact hmem h

/-! Concrete frames and tables used by witnesses and counterexamples.
They follow the spec's section 8 scenarios. -/

/-- A minimal (IHL = 5) TCP frame to 10.0.0.5, destination port 443;
54 bytes = 14 (eth) + 20 (ip) + 20 (tcp). -/
def pktTCP : List Nat :=
  [0, 0, 0, 0, 0, 0, 0, 0, 0, 0, 0, 0, 0x08, 0x00,
   0x45, 0, 0, 0, 0, 0, 0, 0, 64, 6, 0, 0, 192, 168, 0, 1, 10, 0, 0, 5,
   0, 80, 1, 187, 0, 0, 0, 0, 0, 0, 0, 0, 0, 0, 0, 0, 0, 0, 0, 0]

/-- A minimal UDP frame to 10.0.0.9, destination port 53;
42 bytes = 14 (eth) + 20 (ip) + 8 (udp). -/
def pktUDP : List Nat :=
  [0, 0, 0, 0, 0, 0, 0, 0, 0, 0, 0, 0, 0x08, 0x00,
   0x45, 0, 0, 0, 0, 0, 0, 0, 64, 17, 0, 0, 192, 168, 0, 1, 10, 0, 0, 9,
   0, 68, 0, 53, 0, 0, 0, 0]

/-- A 34-byte ICMP frame (protocol 1): Ethernet and IPv4 headers only. -/
def pktICMP : List Nat :=
  [0, 0, 0, 0, 0, 0, 0, 0, 0, 0, 0, 0, 0x08, 0x00,
   0x45, 0, 0, 0, 0, 0, 0, 0, 64, 1, 0, 0, 192, 168, 0, 1, 10, 0, 0, 9]

/-- A 10-byte buffer, shorter than an Ethernet header. -/
def pktShort : List Nat := [0, 0, 0, 0, 0, 0, 0, 0, 0, 0]

/-- A well-formed Ethernet frame with ethertype 0x86DD (IPv6). -/
def pktV6 : List Nat :=
  [0, 0, 0, 0, 0, 0, 0, 0, 0, 0, 0, 0, 0x86, 0xDD] ++ List.replicate 40 0

/-- A TCP frame whose IHL field is 6 (24-byte IPv4 header with 4 option
bytes); 58 bytes.  The bytes at the fixed no-options offset 36 are
0xAA 0xBB, while the TCP destination-port field (at offset 40, after the
24-byte IP header) is 0x12 0x34. -/
def pktIhl6 : List Nat :=
  [0, 0, 0, 0, 0, 0, 0, 0, 0, 0, 0, 0, 0x08, 0x00,
   0x46, 0, 0, 0, 0, 0, 0, 0, 64, 6, 0, 0, 192, 168, 0, 1, 10, 0, 0, 5,
   0, 0, 0xAA, 0xBB,
   0, 80, 0x12, 0x34, 0, 0, 0, 0, 0, 0, 0, 0, 0, 0, 0, 0, 0, 0, 0, 0]

/-- The key `pktTCP` parses to: address bytes 10.0.0.5 read little-endian,
port 443, protocol 6. -/
def keyTCP : PolicyKey := ⟨83886090, 443, 6⟩

/-- The key `pktUDP` parses to. -/
def keyUDP : PolicyKey := ⟨150994954, 53, 17⟩

/-- The i-th distinct key of the capacity witness table. -/
def keyOf (i : Nat) : PolicyKey := ⟨i, 0, 0⟩

/-- A table holding exactly `max_entries` distinct keys. -/
def bigTable : PolicyTable :=
  (List.range max_entries).map (fun i => (keyOf i, Action.allow))

/-! Claims -/

/-- C1: for every frame whose parse succeeds, the verdict is determined by
the lookup result and the mode: under DefaultDeny the verdict is Allow
exactly on a stored Allow (Block on stored Block or a miss); under
DefaultPermissive the verdict is Block exactly on a stored Block (Allow on
stored Allow or a miss). -/
theorem verdict_from_lookup_c1 (pkt : List Nat) (t : PolicyTable)
    (h : ParsedHeader) (hok : parse_ipv4 pkt = .ok h) :
    (lookup t (mkKey h) = some Action.allow →
      classify .DefaultDeny pkt t = .Allow ∧
      classify .DefaultPermissive pkt t = .Allow) ∧
    (lookup t (mkKey h) = some Action.block →
      classify .DefaultDeny pkt t = .Block ∧
      classify .DefaultPermissive pkt t = .Block) ∧
    (lookup t (mkKey h) = none →
      classify .DefaultDeny pkt t = .Block ∧
      classify .DefaultPermissive pkt t = .Allow) := by
  refine ⟨fun hl => ?_, fun hl => ?_, fun hl => ?_⟩ <;>
    simp [classify, filter_egress, filter_egress_permissive, hok, hl, actionCode]

/-- C1 witness: spec scenario 1, the TCP frame to 10.0.0.5:443 against the
table storing Block for its key is blocked in both modes. -/
theorem verdict_from_lookup_c1_witness :
    classify .DefaultDeny pktTCP [(keyTCP, Action.block)] = .Block ∧
    classify .DefaultPermissive pktTCP [(keyTCP, Action.block)] = .Block :=
  (verdict_from_lookup_c1 pktTCP [(keyTCP, Action.block)]
    ⟨83886090, 6, 443⟩ rfl).2.1 (by decide)

/-- C2: a frame whose parse fails (Truncated or NotIPv4) is allowed in
both modes, whatever the table holds; the failure never reaches the
caller as an error (the classifier returns the ordinary Allow verdict). -/
theorem parse_failure_fail_open_c2 (pkt : List Nat) (t : PolicyTable)
    (e : ParseFailure) (hf : parse_ipv4 pkt = .error e) :
    filter_egress pkt t = 1 ∧ filter_egress_permissive pkt t = 1 ∧
    classify .DefaultDeny pkt t = .Allow ∧
    classify .DefaultPermissive pkt t = .Allow := by
  simp [classify, filter_egress, filter_egress_permissive, hf]

/-- C2 witness: spec scenario 4, a 10-byte buffer is allowed in both
modes even against a table that blocks everything it knows. -/
theorem parse_failure_fail_open_c2_witness :
    filter_egress pktShort [(keyTCP, Action.block)] = 1 ∧
    filter_egress_permissive pktShort [(keyTCP, Action.block)] = 1 ∧
    classify .DefaultDeny pktShort [(keyTCP, Action.block)] = .Allow ∧
    classify .DefaultPermissive pktShort [(keyTCP, Action.block)] = .Allow :=
  parse_failure_fail_open_c2 pktShort [(keyTCP, Action.block)]
    .Truncated rfl

/-- C3: on a parse success whose key is stored, both modes return the
stored action's verdict; the modes can only differ on a parse success
whose key misses the table. -/
theorem modes_agree_on_hit_c3 (pkt : List Nat) (t : PolicyTable) :
    (∀ h a, parse_ipv4 pkt = .ok h → lookup t (mkKey h) = some a →
      classify .DefaultDeny pkt t = actionVerdict a ∧
      classify .DefaultPermissive pkt t = actionVerdict a) ∧
    (classify .DefaultDeny pkt t ≠ classify .DefaultPermissive pkt t →
      ∃ h, parse_ipv4 pkt = .ok h ∧ lookup t (mkKey h) = none) := by
  constructor
  · intro h a hok hl
    cases a <;>
      simp [classify, filter_egress, filter_egress_permissive, hok, hl,
        actionCode, actionVerdict]
  · intro hne
    cases hp : parse_ipv4 pkt with
    | error e =>
      exact absurd (by simp [classify, filter_egress,
        filter_egress_permissive, hp]) hne
    | ok h =>
      cases hl : lookup t (mkKey h) with
      | none => exact ⟨h, rfl, hl⟩
      | some a =>
        refine absurd ?_ hne
        cases a <;>
          simp [classify, filter_egress, filter_egress_permissive, hp, hl,
            actionCode]

/-- C3 witness: spec scenario 3, the UDP frame to 10.0.0.9:53 with a
stored Allow gets Allow from both modes. -/
theorem modes_agree_on_hit_c3_witness :
    classify .DefaultDeny pktUDP [(keyUDP, Action.allow)] = .Allow ∧
    classify .DefaultPermissive pktUDP [(keyUDP, Action.allow)] = .Allow :=
  (modes_agree_on_hit_c3 pktUDP [(keyUDP, Action.allow)]).1
    ⟨150994954, 17, 53⟩ Action.allow rfl (by decide)

/-- C9: classification is a total terminating function: on every buffer,
table and mode the program returns exactly 0 or 1, and the classifier
exactly one of the two verdicts. -/
theorem classifier_total_c9 (pkt : List Nat) (t : PolicyTable) :
    (filter_egress pkt t = 0 ∨ filter_egress pkt t = 1) ∧
    (filter_egress_permissive pkt t = 0 ∨
      filter_egress_permissive pkt t = 1) ∧
    ∀ mode, classify mode pkt t = Verdict.Allow ∨
      classify mode pkt t = Verdict.Block := by
  refine ⟨?_, ?_, ?_⟩
  · cases hp : parse_ipv4 pkt with
    | error e => simp [filter_egress, hp]
    | ok h =>
      cases hl : lookup t (mkKey h) with
      | none => simp [filter_egress, hp, hl]
      | some a => cases a <;> simp [filter_egress, hp, hl, actionCode]
  · cases hp : parse_ipv4 pkt with
    | error e => simp [filter_egress_permissive, hp]
    | ok h =>
      cases hl : lookup t (mkKey h) with
      | none => simp [filter_egress_permissive, hp, hl]
      | some a =>
        cases a <;> simp [filter_egress_permissive, hp, hl, actionCode]
  · intro mode
    cases mode <;> simp only [classify] <;> split <;> simp

/-- C10: the effective IP header length is the clamp
max(4 x IHL, 20): the transport offset never falls inside the fixed
20-byte IPv4 header, and an undersized IHL is replaced by 20 rather than
rejected. -/
theorem ihl_clamp_c10 (pkt : List Nat) :
    ihlEff pkt = max (ihlField pkt * 4) ipHdrLen ∧
    ethHdrLen + ipHdrLen ≤ transportOffset pkt ∧
    (ihlField pkt * 4 < ipHdrLen → ihlEff pkt = ipHdrLen) := by
  have h4 : ihlEff pkt = max (ihlField pkt * 4) ipHdrLen := by
    unfold ihlEff
    rcases le_or_lt ipHdrLen (ihlField pkt * 4) with hle | hlt
    · rw [if_neg (by omega), Nat.max_eq_left hle]
    · rw [if_pos hlt, Nat.max_eq_right (le_of_lt hlt)]
  refine ⟨h4, ?_, fun hlt => ?_⟩
  · unfold transportOffset
    rw [h4]
    exact Nat.add_le_add_left (Nat.le_max_right _ _) _
  · unfold ihlEff
    rw [if_pos hlt]

/-- C10 witness: the 10-byte buffer has IHL field 0, clamped to a 20-byte
effective header. -/
theorem ihl_clamp_c10_witness :
    ihlEff pktShort = ipHdrLen ∧
    ihlEff pktShort = max (ihlField pktShort * 4) ipHdrLen :=
  ⟨(ihl_clamp_c10 pktShort).2.2 (by decide), (ihl_clamp_c10 pktShort).1⟩

/-- Exact characterization of the Truncated outcome. -/
theorem parse_trunc_iff (pkt : List Nat) :
    parse_ipv4 pkt = .error .Truncated ↔
      pkt.length < ethHdrLen ∨
      (readBE16 pkt 12 = ETH_P_IP ∧ ethHdrLen ≤ pkt.length ∧
        pkt.length < ethHdrLen + ipHdrLen) ∨
      (readBE16 pkt 12 = ETH_P_IP ∧ ethHdrLen + ipHdrLen ≤ pkt.length ∧
        byteAt pkt 23 = 6 ∧ pkt.length < transportOffset pkt + tcpHdrLen) ∨
      (readBE16 pkt 12 = ETH_P_IP ∧ ethHdrLen + ipHdrLen ≤ pkt.length ∧
        byteAt pkt 23 = 17 ∧ pkt.length < transportOffset pkt + udpHdrLen) := by
  have e12 := eth_proto_iff pkt
  simp only [parse_ipv4, loadOk, IPPROTO_TCP, IPPROTO_UDP]
  split_ifs with h1 h2 h3 h4 h5 h6 h7
  · have hne : readBE16 pkt 12 ≠ ETH_P_IP := fun hh => h2 (e12.mpr hh)
    exact iff_of_false (by simp) (by omega)
  · simp only [false_iff]
    omega
  · have hbe : readBE16 pkt 12 = ETH_P_IP := e12.mp (of_not_not h2)
    exact iff_of_true rfl (by omega)
  · simp only [false_iff]
    omega
  · have hbe : readBE16 pkt 12 = ETH_P_IP := e12.mp (of_not_not h2)
    exact iff_of_true rfl (by omega)
  · simp only [false_iff]
    omega
  · have hbe : readBE16 pkt 12 = ETH_P_IP := e12.mp (of_not_not h2)
    exact iff_of_true rfl (by omega)
  · exact iff_of_true rfl (Or.inl (by omega))

/-- Exact characterization of the NotIPv4 outcome. -/
theorem parse_notipv4_iff (pkt : List Nat) :
    parse_ipv4 pkt = .error .NotIPv4 ↔
      ethHdrLen ≤ pkt.length ∧ readBE16 pkt 12 ≠ ETH_P_IP := by
  have e12 := eth_proto_iff pkt
  simp only [parse_ipv4, loadOk, IPPROTO_TCP, IPPROTO_UDP]
  split_ifs with h1 h2 h3 h4 h5 h6 h7
  · have hne : readBE16 pkt 12 ≠ ETH_P_IP := fun hh => h2 (e12.mpr hh)
    exact iff_of_true rfl ⟨by omega, hne⟩
  · have hbe : readBE16 pkt 12 = ETH_P_IP := e12.mp (of_not_not h2)
    simp only [false_iff]
    omega
  · have hbe : readBE16 pkt 12 = ETH_P_IP := e12.mp (of_not_not h2)
    exact iff_of_false (by simp) (by omega)
  · have hbe : readBE16 pkt 12 = ETH_P_IP := e12.mp (of_not_not h2)
    simp only [false_iff]
    omega
  · have hbe : readBE16 pkt 12 = ETH_P_IP := e12.mp (of_not_not h2)
    exact iff_of_false (by simp) (by omega)
  · have hbe : readBE16 pkt 12 = ETH_P_IP := e12.mp (of_not_not h2)
    simp only [false_iff]
    omega
  · have hbe : readBE16 pkt 12 = ETH_P_IP := e12.mp (of_not_not h2)
    exact iff_of_false (by simp) (by omega)
  · exact iff_of_false (by simp) (by omega)

/-- Exact characterization of parse success. -/
theorem parse_ok_iff (pkt : List Nat) :
    (∃ h, parse_ipv4 pkt = .ok h) ↔
      readBE16 pkt 12 = ETH_P_IP ∧ ethHdrLen + ipHdrLen ≤ pkt.length ∧
      (byteAt pkt 23 = 6 → transportOffset pkt + tcpHdrLen ≤ pkt.length) ∧
      (byteAt pkt 23 = 17 → transportOffset pkt + udpHdrLen ≤ pkt.length) := by
  have e12 := eth_proto_iff pkt
  simp only [parse_ipv4, loadOk, IPPROTO_TCP, IPPROTO_UDP]
  split_ifs with h1 h2 h3 h4 h5 h6 h7
  · have hne : readBE16 pkt 12 ≠ ETH_P_IP := fun hh => h2 (e12.mpr hh)
    exact iff_of_false (by simp) (by omega)
  · have hbe : readBE16 pkt 12 = ETH_P_IP := e12.mp (of_not_not h2)
    exact iff_of_true ⟨_, rfl⟩ (by omega)
  · exact iff_of_false (by simp) (by omega)
  · have hbe : readBE16 pkt 12 = ETH_P_IP := e12.mp (of_not_not h2)
    exact iff_of_true ⟨_, rfl⟩ (by omega)
  · exact iff_of_false (by simp) (by omega)
  · have hbe : readBE16 pkt 12 = ETH_P_IP := e12.mp (of_not_not h2)
    exact iff_of_true ⟨_, rfl⟩ (by omega)
  · exact iff_of_false (by simp) (by omega)
  · exact iff_of_false (by simp) (by omega)

/-- C6: parsing fails Truncated exactly when the buffer is shorter than
the header being read (Ethernet, then IPv4, then TCP/UDP when the
protocol asks for one), fails NotIPv4 exactly when the Ethernet header was
fully read but the big-endian ethertype is not 0x0800, and succeeds in
every other case. -/
theorem parse_status_c6 (pkt : List Nat) :
    (parse_ipv4 pkt = .error .Truncated ↔
      pkt.length < ethHdrLen ∨
      (readBE16 pkt 12 = ETH_P_IP ∧ ethHdrLen ≤ pkt.length ∧
        pkt.length < ethHdrLen + ipHdrLen) ∨
      (readBE16 pkt 12 = ETH_P_IP ∧ ethHdrLen + ipHdrLen ≤ pkt.length ∧
        byteAt pkt 23 = 6 ∧ pkt.length < transportOffset pkt + tcpHdrLen) ∨
      (readBE16 pkt 12 = ETH_P_IP ∧ ethHdrLen + ipHdrLen ≤ pkt.length ∧
        byteAt pkt 23 = 17 ∧
        pkt.length < transportOffset pkt + udpHdrLen)) ∧
    (parse_ipv4 pkt = .error .NotIPv4 ↔
      ethHdrLen ≤ pkt.length ∧ readBE16 pkt 12 ≠ ETH_P_IP) ∧
    ((∃ h, parse_ipv4 pkt = .ok h) ↔
      readBE16 pkt 12 = ETH_P_IP ∧ ethHdrLen + ipHdrLen ≤ pkt.length ∧
      (byteAt pkt 23 = 6 → transportOffset pkt + tcpHdrLen ≤ pkt.length) ∧
      (byteAt pkt 23 = 17 → transportOffset pkt + udpHdrLen ≤ pkt.length)) :=
  ⟨parse_trunc_iff pkt, parse_notipv4_iff pkt, parse_ok_iff pkt⟩

/-- C6 witness: the 10-byte buffer is Truncated, the IPv6 frame is
NotIPv4, and the 54-byte TCP frame parses. -/
theorem parse_status_c6_witness :
    parse_ipv4 pktShort = .error .Truncated ∧
    parse_ipv4 pktV6 = .error .NotIPv4 ∧
    ∃ h, parse_ipv4 pktTCP = .ok h :=
  ⟨(parse_status_c6 pktShort).1.mpr (Or.inl (by decide)),
   (parse_status_c6 pktV6).2.1.mpr ⟨by decide, by decide⟩,
   (parse_status_c6 pktTCP).2.2.mpr ⟨by decide, by decide, by decide, by decide⟩⟩

/-- C4: the key's address field keeps the wire byte order (its in-memory
little-endian byte decomposition is byte-for-byte the wire header's
destination-address field, no numeric conversion), while the port field
is the big-endian (network order) numeric value of the wire port field,
i.e. the value after conversion to the host's native representation. -/
theorem key_byte_order_c4 (pkt : List Nat) (h : ParsedHeader)
    (hok : parse_ipv4 pkt = .ok h) :
    (h.destAddress % 256 = byteAt pkt 30 ∧
     h.destAddress / 256 % 256 = byteAt pkt 31 ∧
     h.destAddress / 65536 % 256 = byteAt pkt 32 ∧
     h.destAddress / 16777216 % 256 = byteAt pkt 33) ∧
    ((h.protocol = IPPROTO_TCP ∨ h.protocol = IPPROTO_UDP) →
      h.destPort = readBE16 pkt (transportOffset pkt + 2)) := by
  obtain ⟨ha, hp, hport, _⟩ := parse_ok_inv pkt h hok
  constructor
  · rw [ha]
    unfold readLE32
    simp only [Nat.reduceAdd]
    have b30 := byteAt_lt pkt 30
    have b31 := byteAt_lt pkt 31
    have b32 := byteAt_lt pkt 32
    have b33 := byteAt_lt pkt 33
    refine ⟨by omega, by omega, by omega, by omega⟩
  · intro hc
    rw [hport hc, bpf_ntohs_readLE16]

/-- C4 witness: on the 54-byte TCP frame the address stays in wire order
(low byte 10, high byte 5 for 10.0.0.5) and the port is the big-endian
value 443. -/
theorem key_byte_order_c4_witness :
    (83886090 : Nat) % 256 = byteAt pktTCP 30 ∧
    (83886090 : Nat) / 16777216 % 256 = byteAt pktTCP 33 ∧
    (443 : Nat) = readBE16 pktTCP (transportOffset pktTCP + 2) := by
  have hthm := key_byte_order_c4 pktTCP ⟨83886090, 6, 443⟩ rfl
  exact ⟨hthm.1.1, hthm.1.2.2.2, hthm.2 (Or.inl rfl)⟩

/-- C5 counterexample: on a TCP frame whose IHL field is 6 the parser
returns destination port 0x1234, read at offset 40 = 14 + 24 + 2, while
the 16-bit field at the claim's fixed offset 36 = 14 + 20 + 2 holds
0xAABB: the port is not always read at the fixed offset. -/
theorem fixed_offset_c5_counterexample :
    parse_ipv4 pktIhl6 = .ok ⟨83886090, 6, 0x1234⟩ ∧
    readBE16 pktIhl6 (ethHdrLen + ipHdrLen + 2) = 0xAABB ∧
    (0x1234 : Nat) ≠ 0xAABB :=
  ⟨rfl, by decide, by decide⟩

/-- C5 amended: for TCP/UDP frames the destination port is read at offset
ethHdrLen + max(4 x IHL, 20) + 2; this coincides with the fixed offset
ethHdrLen + 20 + 2 exactly when the IHL field is at most 5. -/
theorem transport_offset_c5_amended (pkt : List Nat) (h : ParsedHeader)
    (hok : parse_ipv4 pkt = .ok h)
    (hp : h.protocol = IPPROTO_TCP ∨ h.protocol = IPPROTO_UDP) :
    h.destPort = readBE16 pkt (ethHdrLen + max (ihlField pkt * 4) ipHdrLen + 2) ∧
    (ihlField pkt ≤ 5 →
      ethHdrLen + max (ihlField pkt * 4) ipHdrLen = ethHdrLen + ipHdrLen) := by
  obtain ⟨-, -, hport, -⟩ := parse_ok_inv pkt h hok
  have hmax : transportOffset pkt = ethHdrLen + max (ihlField pkt * 4) ipHdrLen := by
    unfold transportOffset
    rw [(ihl_clamp_c10 pkt).1]
  constructor
  · rw [hport hp, bpf_ntohs_readLE16, hmax]
  · intro h5
    have : max (ihlField pkt * 4) ipHdrLen = ipHdrLen :=
      Nat.max_eq_right (by unfold ipHdrLen; omega)
    rw [this]

/-- C5 amended witness: on the IHL = 6 frame the port 0x1234 is read at
offset 14 + 24 + 2 = 40. -/
theorem transport_offset_c5_amended_witness :
    (0x1234 : Nat) =
      readBE16 pktIhl6 (ethHdrLen + max (ihlField pktIhl6 * 4) ipHdrLen + 2) :=
  (transport_offset_c5_amended pktIhl6 ⟨83886090, 6, 0x1234⟩ rfl
    (Or.inl rfl)).1

/-- C7: a frame whose Ethernet and IPv4 headers parse and whose protocol
is neither 6 nor 17 parses successfully with destination port 0, however
short the rest of the buffer is (no transport header is required). -/
theorem other_protocol_c7 (pkt : List Nat)
    (hlen : ethHdrLen + ipHdrLen ≤ pkt.length)
    (hip : readBE16 pkt 12 = ETH_P_IP)
    (h6 : byteAt pkt 23 ≠ IPPROTO_TCP) (h17 : byteAt pkt 23 ≠ IPPROTO_UDP) :
    parse_ipv4 pkt = .ok ⟨readLE32 pkt 30, byteAt pkt 23, 0⟩ := by
  have e12 := eth_proto_iff pkt
  simp only [loadOk, ethHdrLen, ipHdrLen] at hlen
  simp only [parse_ipv4, loadOk, ethHdrLen, ipHdrLen]
  split_ifs with h1 h2 h3 h4 h5 <;>
    first
      | rfl
      | (exact absurd (e12.mpr hip) (by assumption))
      | (exact absurd (by assumption) h6)
      | (exact absurd (by assumption) h17)
      | (exfalso; omega)

/-- C7 witness: the 34-byte ICMP frame (protocol 1) parses with port 0. -/
theorem other_protocol_c7_witness :
    parse_ipv4 pktICMP = .ok ⟨readLE32 pktICMP 30, byteAt pktICMP 23, 0⟩ :=
  other_protocol_c7 pktICMP (by decide) (by decide) (by decide) (by decide)

/-- C8: an insert of a new key into a table already holding
`max_entries` = 10000 distinct keys fails with CapacityExceeded and
leaves the table, hence every stored entry, unchanged. -/
theorem capacity_c8 (t : PolicyTable) (k : PolicyKey) (a : Action)
    (hdis : (t.map Prod.fst).Nodup) (hfull : t.length = max_entries)
    (hnew : k ∉ t.map Prod.fst) :
    (insertOp t k a).1 = some .CapacityExceeded ∧
    (insertOp t k a).2 = t ∧
    ∀ k2, lookup (insertOp t k a).2 k2 = lookup t k2 := by
  have hmiss : lookup t k = none := (lookup_eq_none t k).mpr hnew
  have hins : insert t k a = .error .CapacityExceeded := by
    unfold insert
    rw [hmiss]
    rw [if_neg (by omega)]
  refine ⟨?_, ?_, fun k2 => ?_⟩ <;> simp [insertOp, hins]

/-- C8 witness: the 10001st distinct insert into the 10000-entry table
fails and the table is untouched. -/
theorem capacity_c8_witness :
    (insertOp bigTable (keyOf max_entries) Action.allow).1 =
      some .CapacityExceeded ∧
    (insertOp bigTable (keyOf max_entries) Action.allow).2 = bigTable ∧
    ∀ k2, lookup (insertOp bigTable (keyOf max_entries) Action.allow).2 k2 =
      lookup bigTable k2 := by
  have hinj : Function.Injective keyOf := fun a b hab => by
    simpa [keyOf, PolicyKey.mk.injEq] using hab
  have hmap : bigTable.map Prod.fst = (List.range max_entries).map keyOf := by
    simp [bigTable, List.map_map]
  refine capacity_c8 bigTable (keyOf max_entries) Action.allow ?_ ?_ ?_
  · rw [hmap]
    exact (List.nodup_range _).map hinj
  · simp [bigTable]
  · rw [hmap]
    intro hmem
    obtain ⟨i, hi, hki⟩ := List.mem_map.mp hmem
    have hlt : i < max_entries := List.mem_range.mp hi
    have : i = max_entries := hinj hki
    omega

end ZTAP
